import Mathlib

/-!
Verification of `pyiron/atomistics/master/elastic.py` (elastic-tensor fitting).

The Python module is shallowly embedded below:
* exact rationals (`ℚ`) stand for Python floats wherever the code only does
  field arithmetic; the orientation query, which takes a real square root in
  `np.linalg.norm`, is embedded over `ℝ`;
* numpy arrays become `Fin`-indexed functions or `List`s;
* `sklearn.linear_model.LinearRegression` (default `fit_intercept=True`) is
  embedded relationally: its returned coefficients/intercept are exactly the
  least-squares stationary points, i.e. they satisfy the normal equations of
  the intercept-augmented design (`IsLSFit` below); coefficients of columns
  that are absent from the design are `0` (scipy's `lstsq` returns the
  minimum-norm solution, which vanishes on identically-zero centered columns);
* raising `ValueError` becomes an error constructor of `CalcOutcome`
  (`Option` for the orientation query).
-/

/-- 3x3 rational matrix (a numpy `(3,3)` array). -/
abbrev Mat3 : Type := Fin 3 → Fin 3 → ℚ

/-- 6-component Voigt vector. -/
abbrev Vec6 : Type := Fin 6 → ℚ

/-- 6x6 rational matrix (Voigt elastic tensor). -/
abbrev Mat66 : Type := Fin 6 → Fin 6 → ℚ

/-- Rank-4 3x3x3x3 tensor over `α`. -/
abbrev T4 (α : Type) : Type := Fin 3 → Fin 3 → Fin 3 → Fin 3 → α

/-- `np.eye(3)` over `ℚ`. -/
def eye3 : Mat3 := fun i j => if i = j then 1 else 0

/-- CODATA-2018 value stored by
`scipy.constants.physical_constants["joule-electron volt relationship"][0]`,
namely `6.241509074460763e18` (the 16-digit value of `1/e`, `e` the
elementary charge in coulombs), read as an exact rational. -/
def joule_electron_volt_relationship : ℚ := 6241509074460763 * 10 ^ 3

/-- Source line 26-28: `eV_div_A3_to_GPa = 1e21 / physical_constants[...]`. -/
def eV_div_A3_to_GPa : ℚ := 10 ^ 21 / joule_electron_volt_relationship

/-- CODATA-2018 elementary charge in coulombs, `1.602176634e-19` (exact). -/
def elementary_charge : ℚ := 1602176634 / 10 ^ 28

/-- Source line 49/56: the index map `i + (i!=j)*(6-2*i-j)` collapsing a pair
of tensor indices to one Voigt index.  For `i ≠ j` the value is
`i + 6 - 2*i - j = 6 - i - j ∈ {3,4,5}`; natural subtraction never truncates
here (`2*i + j ≤ 5` whenever `i ≠ j`, and the branch is unused for `i = j`). -/
def voigt_index (i j : Fin 3) : Fin 6 :=
  ⟨i.val + (if i = j then 0 else 1) * (6 - 2 * i.val - j.val), by
    have hi := i.isLt
    have hj := j.isLt
    by_cases h : i = j <;> simp [h] <;> omega⟩

/-- The index map exactly as the spec sentence for claim C3 words it:
`m(i,j) = i if i==j else 6 - 2*min(i,j) - max(i,j)` (0-indexed). -/
def voigt_index_claim (i j : Fin 3) : Fin 6 :=
  if h : i = j then ⟨i.val, by omega⟩
  else ⟨6 - 2 * min i.val j.val - max i.val j.val, by
    have hi := i.isLt
    have hj := j.isLt
    have hne : i.val ≠ j.val := fun hv => h (Fin.ext hv)
    omega⟩

/-- The corrected index map: `m(i,j) = i if i==j else 6 - min(i,j) - max(i,j)`
(equivalently `6 - i - j` for `i ≠ j`). -/
def voigt_index_min_max (i j : Fin 3) : Fin 6 :=
  if h : i = j then ⟨i.val, by omega⟩
  else ⟨6 - min i.val j.val - max i.val j.val, by
    have hi := i.isLt
    have hj := j.isLt
    have hne : i.val ≠ j.val := fun hv => h (Fin.ext hv)
    omega⟩

/-- Source lines 44-49: expand a 6x6 Voigt tensor to the full 3x3x3x3 tensor,
`C[i,j,k,l] = elastic_tensor[i+(i!=j)*(6-2*i-j), k+(k!=l)*(6-2*k-l)]`. -/
def voigt_to_full {α : Type} (C : Fin 6 → Fin 6 → α) : T4 α :=
  fun i j k l => C (voigt_index i j) (voigt_index k l)

/-- The 81 index quadruples `(i,j,k,l)` in the order of the Python nested
`for` loops of lines 52-56 (row-major, `l` innermost). -/
def quadruples : List (Fin 3 × Fin 3 × Fin 3 × Fin 3) :=
  (List.finRange 3).flatMap fun i =>
    (List.finRange 3).flatMap fun j =>
      (List.finRange 3).flatMap fun k =>
        (List.finRange 3).map fun l => (i, j, k, l)

/-- Source lines 51-56: contract a full 3x3x3x3 tensor back to 6x6 Voigt form.
The loop wrote `elastic_tensor_to_return[m(i,j), m(k,l)] = C[i,j,k,l]` for all
81 quadruples into an array of zeros; the fold reproduces the writes in loop
order, the last write winning, exactly like the numpy in-place assignments. -/
def full_to_voigt {α : Type} [Zero α] (C : T4 α) : Fin 6 → Fin 6 → α :=
  quadruples.foldl
    (fun M q => fun a b =>
      if a = voigt_index q.1 q.2.1 ∧ b = voigt_index q.2.2.1 q.2.2.2 then
        C q.1 q.2.1 q.2.2.1 q.2.2.2
      else M a b)
    (fun _ _ => 0)

/-- Round trip: contracting the expansion of any 6x6 matrix gives it back
(each Voigt slot `(a,b)` is written only with reads `C[m(i,j),m(k,l)]` where
`m(i,j)=a`, `m(k,l)=b`). -/
theorem full_to_voigt_voigt_to_full {α : Type} [Zero α] (C : Fin 6 → Fin 6 → α) :
    full_to_voigt (voigt_to_full C) = C := by
  funext a b
  fin_cases a <;> fin_cases b <;> rfl

/-- `np.round` rounds to the nearest integer, ties to even. -/
def roundHalfEven (x : ℚ) : ℤ :=
  if x - ⌊x⌋ < 1 / 2 then ⌊x⌋
  else if 1 / 2 < x - ⌊x⌋ then ⌊x⌋ + 1
  else if 2 ∣ ⌊x⌋ then ⌊x⌋ else ⌊x⌋ + 1

/-- `np.round(x, 6)`: round to 6 decimal places. -/
def round6 (x : ℚ) : ℚ := (roundHalfEven (x * 10 ^ 6) : ℚ) / 10 ^ 6

/-- Entrywise `np.round(M, 6)` of a 3x3 matrix. -/
def round6Mat (M : Mat3) : Mat3 := fun i j => round6 (M i j)

/-- Source lines 103-105:
`rotations = np.append(np.eye(3), rotations).reshape(-1, 3, 3)` prepends the
identity; `_, indices = np.unique(np.round(rotations, 6), axis=0,
return_inverse=True)` computes, for each matrix, its position in the sorted
list of distinct rounded matrices; since every position `0..k-1` occurs in
`indices` (`return_inverse` is onto), `np.unique(indices)` is exactly
`[0, 1, ..., k-1]`, so `rotations[np.unique(indices)]` is the FIRST `k`
elements of the identity-prepended list, where `k` is the number of distinct
matrices after rounding — not one representative per distinct matrix. -/
def reduce_rotations (rots : List Mat3) : List Mat3 :=
  (eye3 :: rots).take (((eye3 :: rots).map round6Mat).dedup.length)

/-- Modelled from the spec: `reduceRotations` as §4.2 words it — "always
prepend identity; round every matrix to 6 decimal places; deduplicate by
exact equality after rounding; preserve first-occurrence order".  (The code's
actual selection differs; this definition exists only for comparison.) -/
def reduce_rotations_spec (rots : List Mat3) : List Mat3 :=
  (eye3 :: rots).foldl
    (fun acc x => if round6Mat x ∈ acc.map round6Mat then acc else acc ++ [x]) []

/-- Source lines 102-107: the rotation list actually used by
`calc_elastic_tensor` (`[np.eye(3)]` when `rotations is None`). -/
def usedRotations : Option (List Mat3) → List Mat3
  | some rots => reduce_rotations rots
  | none => [eye3]

/-- Source line 108 / line 60, the einsum `'nik,mkl,njl->nmij'` applied to one
rotation and one sample: `(R S Rᵀ)[i,j] = Σ_k Σ_l R[i,k] S[k,l] R[j,l]`. -/
def conjRot (R S : Mat3) : Mat3 := fun i j => ∑ k, ∑ l, R i k * S k l * R j l

/-- Source line 109: strain Voigt vector
`(ε00, ε11, ε22, 2ε12, 2ε02, 2ε01)` (off-diagonals doubled). -/
def voigtStrain (e : Mat3) : Vec6 :=
  ![e 0 0, e 1 1, e 2 2, 2 * e 1 2, 2 * e 0 2, 2 * e 0 1]

/-- Source line 61: stress Voigt vector
`(σ00, σ11, σ22, σ12, σ02, σ01)` (off-diagonals not doubled). -/
def voigtStress (s : Mat3) : Vec6 :=
  ![s 0 0, s 1 1, s 2 2, s 1 2, s 0 2, s 0 1]

/-- Source lines 108-109: rotation-augmented Voigt strain samples; the numpy
reshape of the `'nik,mkl,njl->nmij'` result is rotation-major, sample-minor. -/
def augStrainV (rots : List Mat3) (strain : List Mat3) : List Vec6 :=
  (rots.map fun R => strain.map fun e => voigtStrain (conjRot R e)).flatten

/-- Source lines 60-61: rotation-augmented Voigt stress samples. -/
def augStressV (rots : List Mat3) (stress : List Mat3) : List Vec6 :=
  (rots.map fun R => stress.map fun s => voigtStress (conjRot R s)).flatten

/-- Inner product of a coefficient vector with one sample's feature vector. -/
def dotp {ι : Type} [Fintype ι] (c x : ι → ℚ) : ℚ := ∑ j, c j * x j

/-- Residual of one sample `s = (features, target)` under slope `c` and
intercept `a`. -/
def residLS {ι : Type} [Fintype ι] (c : ι → ℚ) (a : ℚ) (s : (ι → ℚ) × ℚ) : ℚ :=
  s.2 - a - dotp c s.1

/-- Embedding of `LinearRegression().fit(X, y)` (`fit_intercept=True`, the
sklearn default): the returned `coef_`/`intercept_` pair is a least-squares
solution, i.e. it satisfies the stationarity (normal) equations of
`min Σ (y - intercept - X·coef)²` over the design columns `cols`; columns not
in the design carry coefficient `0` (scipy `lstsq` minimum-norm solution). -/
def IsLSFit {ι : Type} [Fintype ι] [DecidableEq ι] (cols : Finset ι)
    (samples : List ((ι → ℚ) × ℚ)) (c : ι → ℚ) (a : ℚ) : Prop :=
  (∀ j ∈ cols, (samples.map fun s => residLS c a s * s.1 j).sum = 0) ∧
  (samples.map (residLS c a)).sum = 0 ∧
  (∀ j ∉ cols, c j = 0)

/-- Sum of squared residLSs of the intercept-carrying regression. -/
def SSR {ι : Type} [Fintype ι] (samples : List ((ι → ℚ) × ℚ)) (c : ι → ℚ)
    (a : ℚ) : ℚ :=
  (samples.map fun s => residLS c a s ^ 2).sum

/-- Sum of squared residLSs of a regression through the origin (what the
spec's "without intercept" fit would minimise). -/
def SSRno {ι : Type} [Fintype ι] (samples : List ((ι → ℚ) × ℚ)) (c : ι → ℚ) : ℚ :=
  (samples.map fun s => (s.2 - dotp c s.1) ^ 2).sum

theorem residLS_shift {ι : Type} [Fintype ι] (c c1 : ι → ℚ) (a a1 : ℚ)
    (s : (ι → ℚ) × ℚ) :
    residLS c1 a1 s =
      residLS c a s - ((a1 - a) + dotp (fun j => c1 j - c j) s.1) := by
  simp only [residLS, dotp, sub_mul, Finset.sum_sub_distrib]
  ring

theorem SSR_expand {ι : Type} [Fintype ι] (samples : List ((ι → ℚ) × ℚ))
    (c c1 : ι → ℚ) (a a1 : ℚ) :
    SSR samples c1 a1 =
      SSR samples c a
      - 2 * (samples.map fun s =>
          residLS c a s * ((a1 - a) + dotp (fun j => c1 j - c j) s.1)).sum
      + (samples.map fun s =>
          ((a1 - a) + dotp (fun j => c1 j - c j) s.1) ^ 2).sum := by
  induction samples with
  | nil => simp [SSR]
  | cons s t ih =>
    simp only [SSR, List.map_cons, List.sum_cons] at ih ⊢
    rw [residLS_shift c c1 a a1 s]
    linear_combination ih

theorem sum_map_mul_dot {ι : Type} [Fintype ι] (samples : List ((ι → ℚ) × ℚ))
    (f : (ι → ℚ) × ℚ → ℚ) (a : ℚ) (d : ι → ℚ) :
    (samples.map fun s => f s * (a + dotp d s.1)).sum =
      a * (samples.map f).sum +
        ∑ j, d j * (samples.map fun s => f s * s.1 j).sum := by
  induction samples with
  | nil => simp
  | cons s t ih =>
    simp only [List.map_cons, List.sum_cons, ih]
    have hsplit :
        ∑ j, d j * (f s * s.1 j + (List.map (fun s => f s * s.1 j) t).sum) =
          (∑ j, d j * (f s * s.1 j)) +
            ∑ j, d j * (List.map (fun s => f s * s.1 j) t).sum := by
      rw [← Finset.sum_add_distrib]
      exact Finset.sum_congr rfl fun j _ => by ring
    have hswap : ∑ j, d j * (f s * s.1 j) = f s * dotp d s.1 := by
      rw [dotp, Finset.mul_sum]
      exact Finset.sum_congr rfl fun j _ => by ring
    rw [hsplit, hswap]
    ring

theorem sum_map_sq_nonneg {β : Type} (l : List β) (g : β → ℚ) :
    0 ≤ (l.map fun s => g s ^ 2).sum := by
  induction l with
  | nil => simp
  | cons s t ih =>
    simp only [List.map_cons, List.sum_cons]
    have := sq_nonneg (g s)
    linarith

/-- A full-design least-squares stationary point minimises the
intercept-carrying sum of squared residLSs. -/
theorem isLSFit_min {ι : Type} [Fintype ι] [DecidableEq ι]
    (samples : List ((ι → ℚ) × ℚ)) (c : ι → ℚ) (a : ℚ)
    (h : IsLSFit Finset.univ samples c a) :
    ∀ c1 a1, SSR samples c a ≤ SSR samples c1 a1 := by
  intro c1 a1
  rw [SSR_expand samples c c1 a a1]
  rw [sum_map_mul_dot samples (residLS c a) (a1 - a) (fun j => c1 j - c j)]
  have h2 := h.2.1
  have h1 : ∀ j : ι, (samples.map fun s => residLS c a s * s.1 j).sum = 0 :=
    fun j => h.1 j (Finset.mem_univ j)
  have hz : ∑ j, (c1 j - c j) * (samples.map fun s => residLS c a s * s.1 j).sum
      = 0 := by
    rw [Finset.sum_eq_zero]
    intro j _
    rw [h1 j, mul_zero]
  rw [h2, hz]
  have := sum_map_sq_nonneg samples
    (fun s => (a1 - a) + dotp (fun j => c1 j - c j) s.1)
  linarith

/-- Source lines 59-68 (`_fit_coeffs_with_stress`): the stress samples are
rotation-augmented and put in Voigt form, then each of the 6 Voigt stress
components is regressed (with sklearn's default intercept) against the
6-column augmented strain design.  `C` relates to the inputs exactly when
each of its rows, together with some intercept, is a least-squares solution
of the corresponding component regression — `reg.coef_` being row `i`. -/
def stressFitRel (X : List Vec6) (stress : List Mat3) (rots : List Mat3)
    (C : Mat66) : Prop :=
  ∀ i : Fin 6, ∃ a : ℚ,
    IsLSFit Finset.univ (X.zip ((augStressV rots stress).map fun y => y i)) (C i) a

/-- `np.tile(l, m)`: concatenate `m` copies of `l` (source lines 71-72). -/
def tile (l : List ℚ) (m : ℕ) : List ℚ := (List.replicate m l).flatten

/-- One row of the energy design matrix (source lines 73-74):
`np.triu(np.einsum('n,ni,nj->nij', 0.5*volume, strain, strain)).reshape(-1,36)`
— flat column `p` corresponds to the pair `(a,b) = (p/6, p%6)` and holds
`0.5*v*ε_a*ε_b` on the upper triangle (`a ≤ b`), `0` below it. -/
def designRow (v : ℚ) (x : Vec6) : Fin 36 → ℚ := fun p =>
  if (p : ℕ) / 6 ≤ (p : ℕ) % 6 then
    1 / 2 * v * x ⟨(p : ℕ) / 6, by omega⟩ * x ⟨(p : ℕ) % 6, by have := p.isLt; omega⟩
  else 0

/-- The full energy design matrix: one row per rotation-augmented sample,
volumes tiled `m` times (source lines 72-74). -/
def energyRows (X : List Vec6) (V : List ℚ) (m : ℕ) : List (Fin 36 → ℚ) :=
  (X.zip (tile V m)).map fun s => designRow s.2 s.1

/-- Sum of a design column over all samples (`np.sum(C, axis=0)`). -/
def colSum (rows : List (Fin 36 → ℚ)) (p : Fin 36) : ℚ := (rows.map fun r => r p).sum

/-- Source line 75: `C = C[:, np.sum(C, axis=0) != 0]` — the retained columns
are those whose sum over samples is nonzero. -/
def energyRetained (rows : List (Fin 36 → ℚ)) : Finset (Fin 36) :=
  Finset.univ.filter fun p => colSum rows p ≠ 0

/-- Flat index of slot `[a][b]` in the reshaped 6x6 coefficient array. -/
def pairIdx (a b : Fin 6) : Fin 36 := ⟨a.val * 6 + b.val, by omega⟩

/-- Source line 82: `0.5 * (coeff + coeff.T)`. -/
def symmetrize (M : Mat66) : Mat66 := fun a b => 1 / 2 * (M a b + M b a)

/-- Source lines 70-83 (`_fit_coeffs_with_energies`).  A ones column is
prepended (line 76) and the tiled energies are regressed on it and the
retained product columns; the ones column duplicates sklearn's own intercept,
so `reg.coef_[1:]` (all that is used afterwards) is a least-squares solution
over the retained columns alone.  Line 79-81 then rebuilds a 6x6 array:
`coeff = np.triu(np.ones((6,6))).flatten()` has exactly 21 nonzero slots and
`coeff[coeff != 0] *= reg.coef_[1:] * eV_div_A3_to_GPa` multiplies them by the
retained coefficients:
* 21 retained columns — the retained set is then exactly the 21 upper-triangle
  columns, in matching flat order, so slot `(a,b)` receives coefficient
  `c(6a+b) * eV_div_A3_to_GPa`;
* 1 retained column — numpy broadcasts the single coefficient onto all
  21 slots;
* any other count — numpy raises a broadcast `ValueError` (shape mismatch),
  modelled as `CalcOutcome.shapeError` below. -/
inductive CalcOutcome : Type
  | notEnoughPoints : CalcOutcome
  | inputMismatch : CalcOutcome
  | shapeError : CalcOutcome
  | ok : Mat66 → CalcOutcome

def energy_fit (X : List Vec6) (E V : List ℚ) (m : ℕ) (out : CalcOutcome) : Prop :=
  if (energyRetained (energyRows X V m)).card = 21 then
    ∃ c a, IsLSFit (energyRetained (energyRows X V m))
        ((energyRows X V m).zip (tile E m)) c a ∧
      out = CalcOutcome.ok (symmetrize fun i j =>
        if (i : ℕ) ≤ (j : ℕ) then c (pairIdx i j) * eV_div_A3_to_GPa else 0)
  else if (energyRetained (energyRows X V m)).card = 1 then
    ∃ c a, IsLSFit (energyRetained (energyRows X V m))
        ((energyRows X V m).zip (tile E m)) c a ∧
      out = CalcOutcome.ok (symmetrize fun i j =>
        if (i : ℕ) ≤ (j : ℕ) then (∑ p, c p) * eV_div_A3_to_GPa else 0)
  else out = CalcOutcome.shapeError

/-- Arguments of `calc_elastic_tensor` (source line 85); `None` defaults are
`Option.none`.  `return_score` is omitted: the claims under audit do not
mention the score output. -/
structure CalcArgs : Type where
  strain : List Mat3
  stress : Option (List Mat3)
  energy : Option (List ℚ)
  volume : Option (List ℚ)
  rotations : Option (List Mat3)

/-- Source line 110: `stress is not None and len(stress)*len(rotations)==len(strain)`
(where `strain` has been rebound to the augmented array). -/
def condA (stress : Option (List Mat3)) (m nAug : ℕ) : Bool :=
  match stress with
  | some S => S.length * m == nAug
  | none => false

/-- Source line 112: `energy is not None and volume is not None and
len(energy)*len(rotations)==len(strain) and len(energy)==len(volume)`. -/
def condB (energy volume : Option (List ℚ)) (m nAug : ℕ) : Bool :=
  match energy, volume with
  | some E, some V => (E.length * m == nAug) && (E.length == V.length)
  | _, _ => false

def CondA (args : CalcArgs) : Bool :=
  condA args.stress (usedRotations args.rotations).length
    (augStrainV (usedRotations args.rotations) args.strain).length

def CondB (args : CalcArgs) : Bool :=
  condB args.energy args.volume (usedRotations args.rotations).length
    (augStrainV (usedRotations args.rotations) args.strain).length

/-- Source lines 85-119, `calc_elastic_tensor` as a relation between the
arguments and the produced outcome: `ValueError('Not enough points')` for
empty strain, the stress branch (line 110-111), the energy branch (112-113),
`ValueError('You have to provide either ...')` otherwise. -/
def calc_elastic_tensor (args : CalcArgs) (out : CalcOutcome) : Prop :=
  if args.strain.length = 0 then out = CalcOutcome.notEnoughPoints
  else if CondA args then
    ∃ S, args.stress = some S ∧
      ∃ C, stressFitRel (augStrainV (usedRotations args.rotations) args.strain) S
          (usedRotations args.rotations) C ∧
        out = CalcOutcome.ok C
  else if CondB args then
    ∃ E V, args.energy = some E ∧ args.volume = some V ∧
      energy_fit (augStrainV (usedRotations args.rotations) args.strain) E V
        (usedRotations args.rotations).length out
  else out = CalcOutcome.inputMismatch

/-- 3x3 real matrix, for the orientation query (which takes square roots). -/
abbrev Mat3R : Type := Fin 3 → Fin 3 → ℝ

/-- 6x6 real matrix. -/
abbrev Mat66R : Type := Fin 6 → Fin 6 → ℝ

/-- Source line 50, the einsum `'Ii,Jj,ijkl,Kk,Ll->IJKL'`:
`C'[I,J,K,L] = Σ_{ijkl} R[I,i] R[J,j] C[i,j,k,l] R[K,k] R[L,l]` (written as a
nested contraction; multiplication is commutative so the grouping is free). -/
def rot4 {α : Type} [CommRing α] (R : Fin 3 → Fin 3 → α) (C : T4 α) : T4 α :=
  fun I J K L => ∑ i, R I i * ∑ j, R J j * ∑ k, R K k * ∑ l, R L l * C i j k l

/-- Source line 41: `np.einsum('ij,i->ij', orientation,
1/np.linalg.norm(orientation, axis=-1))` — divide each row by its Euclidean
norm. -/
noncomputable def row_normalize (M : Mat3R) : Mat3R :=
  fun i j => M i j * (1 / Real.sqrt (∑ k, M i k ^ 2))

/-- `np.eye(3)` over `ℝ`. -/
def eye3R : Mat3R := fun i j => if i = j then 1 else 0

open Classical in
/-- Source lines 30-57 (`get_elastic_tensor_by_orientation`): normalize the
rows, raise `ValueError` (here `none`) unless `np.isclose(det, 1)` — numpy
default tolerances `rtol=1e-5`, `atol=1e-8`, i.e. `|det - 1| ≤ 1e-8 + 1e-5` —
then expand to the full tensor, rotate, and contract back. -/
noncomputable def get_elastic_tensor_by_orientation (orientation : Mat3R)
    (elastic_tensor : Mat66R) : Option Mat66R :=
  if |Matrix.det (Matrix.of (row_normalize orientation)) - 1| ≤
      1 / 10 ^ 8 + 1 / 10 ^ 5 then
    some (full_to_voigt
      (rot4 (row_normalize orientation) (voigt_to_full elastic_tensor)))
  else none

theorem rot4_eye3R (C : T4 ℝ) : rot4 eye3R C = C := by
  funext I J K L
  simp [rot4, eye3R, ite_mul, one_mul, zero_mul, Finset.sum_ite_eq]

/-- The orientation of testable property 4:  `[[1,0,0],[0,1,0],[0,0,2]]`. -/
def orientation_claim : Mat3R := ![![1, 0, 0], ![0, 1, 0], ![0, 0, 2]]

theorem row_normalize_orientation_claim : row_normalize orientation_claim = eye3R := by
  have h4 : Real.sqrt 4 = 2 := by
    rw [show (4 : ℝ) = 2 ^ 2 by norm_num]
    exact Real.sqrt_sq (by norm_num)
  funext i j
  fin_cases i <;> fin_cases j <;>
    simp [row_normalize, orientation_claim, eye3R, Fin.sum_univ_three,
      Matrix.vecHead, Matrix.vecTail]

theorem of_eye3R : Matrix.of eye3R = (1 : Matrix (Fin 3) (Fin 3) ℝ) := by
  ext i j
  simp [Matrix.one_apply, eye3R]

/-- At the claimed orientation the row normalization rescales the third row to
unit length, producing the exact identity, so the `np.isclose` determinant
check passes and the (identity-) rotated tensor is returned unchanged. -/
theorem getETBO_orientation_claim (C : Mat66R) :
    get_elastic_tensor_by_orientation orientation_claim C = some C := by
  unfold get_elastic_tensor_by_orientation
  rw [row_normalize_orientation_claim, of_eye3R, Matrix.det_one]
  rw [if_pos (by norm_num)]
  rw [rot4_eye3R, full_to_voigt_voigt_to_full]

/-- The all-zero 6x6 tensor. -/
def zero66 : Mat66 := fun _ _ => 0

/-- An identity matrix perturbed in one entry by `1e-8 < 1e-7`. -/
def Ipert : Mat3 := ![![1 + 1 / 10 ^ 8, 0, 0], ![0, 1, 0], ![0, 0, 1]]

/-- A 90-degree rotation about the z axis. -/
def R90 : Mat3 := ![![0, -1, 0], ![1, 0, 0], ![0, 0, 1]]

theorem cons3_app0 {α : Type} (a b c : α) : (![a, b, c]) 0 = a := rfl

theorem cons3_app1 {α : Type} (a b c : α) : (![a, b, c]) 1 = b := rfl

theorem cons3_app2 {α : Type} (a b c : α) : (![a, b, c]) 2 = c := rfl

theorem cons6_app0 {α : Type} (a b c d e f : α) : (![a, b, c, d, e, f]) 0 = a := rfl

theorem cons6_app1 {α : Type} (a b c d e f : α) : (![a, b, c, d, e, f]) 1 = b := rfl

theorem cons6_app2 {α : Type} (a b c d e f : α) : (![a, b, c, d, e, f]) 2 = c := rfl

theorem cons6_app3 {α : Type} (a b c d e f : α) : (![a, b, c, d, e, f]) 3 = d := rfl

theorem cons6_app4 {α : Type} (a b c d e f : α) : (![a, b, c, d, e, f]) 4 = e := rfl

theorem cons6_app5 {α : Type} (a b c d e f : α) : (![a, b, c, d, e, f]) 5 = f := rfl

theorem round6_eq_of_near (x : ℚ) (n : ℤ) (h0 : (n : ℚ) ≤ x * 10 ^ 6)
    (h1 : x * 10 ^ 6 - (n : ℚ) < 1 / 2) : round6 x = (n : ℚ) / 10 ^ 6 := by
  have hf : ⌊x * 10 ^ 6⌋ = n := Int.floor_eq_iff.mpr ⟨h0, by linarith⟩
  unfold round6 roundHalfEven
  rw [hf, if_pos (by linarith)]

theorem round6_zero : round6 0 = 0 := by
  rw [round6_eq_of_near 0 0 (by norm_num) (by norm_num)]
  norm_num

theorem round6_one : round6 1 = 1 := by
  rw [round6_eq_of_near 1 (10 ^ 6) (by norm_num) (by norm_num)]
  norm_num

theorem round6_neg_one : round6 (-1) = -1 := by
  rw [round6_eq_of_near (-1) (-(10 ^ 6)) (by norm_num) (by norm_num)]
  norm_num

theorem round6_pert : round6 (1 + (10 ^ 8)⁻¹) = 1 := by
  rw [round6_eq_of_near (1 + (10 ^ 8)⁻¹) (10 ^ 6) (by norm_num) (by norm_num)]
  norm_num

theorem round6Mat_eye3 : round6Mat eye3 = eye3 := by
  funext i j
  fin_cases i <;> fin_cases j <;>
    simp [round6Mat, eye3, round6_zero, round6_one]

theorem round6Mat_Ipert : round6Mat Ipert = eye3 := by
  funext i j
  fin_cases i <;> fin_cases j <;>
    simp [round6Mat, Ipert, eye3, cons3_app0, cons3_app1, cons3_app2,
      Matrix.vecHead, Matrix.vecTail, round6_zero, round6_one, round6_pert]

theorem round6Mat_R90 : round6Mat R90 = R90 := by
  funext i j
  fin_cases i <;> fin_cases j <;>
    simp [round6Mat, R90, cons3_app0, cons3_app1, cons3_app2,
      Matrix.vecHead, Matrix.vecTail, round6_zero, round6_one, round6_neg_one]

theorem R90_ne_eye3 : R90 ≠ eye3 := by
  intro h
  have h00 := congrFun (congrFun h 0) 0
  simp [R90, eye3, cons3_app0, Matrix.vecHead, Matrix.vecTail] at h00

theorem eye3_ne_R90 : eye3 ≠ R90 := fun h => R90_ne_eye3 h.symm

theorem reduce_rotations_eval : reduce_rotations [Ipert, R90] = [eye3, Ipert] := by
  unfold reduce_rotations
  rw [List.map_cons, List.map_cons, List.map_cons, List.map_nil,
    round6Mat_eye3, round6Mat_Ipert, round6Mat_R90]
  have hd : ([eye3, eye3, R90] : List Mat3).dedup = [eye3, R90] := by
    rw [List.dedup_cons_of_mem (by simp),
      List.dedup_cons_of_not_mem
        (by simp only [List.mem_singleton]; exact eye3_ne_R90),
      List.dedup_cons_of_not_mem (by simp)]
    rfl
  rw [hd]
  rfl

/-- C2 (code_bug).  On the input set containing the identity twice (one copy
perturbed by less than `1e-7`) and one 90°-rotation matrix, the code's
rotation reduction keeps the FIRST two elements of the identity-prepended
list — two copies of the identity — and drops the 90° rotation entirely,
instead of returning one representative of each of the 2 distinct rounded
matrices as the spec's `reduceRotations` (modelled alongside) does. -/
theorem C2_theorem :
    reduce_rotations [Ipert, R90] = [eye3, Ipert] ∧
    round6Mat Ipert = round6Mat eye3 ∧
    R90 ∉ reduce_rotations [Ipert, R90] ∧
    reduce_rotations_spec [Ipert, R90] = [eye3, R90] := by
  refine ⟨reduce_rotations_eval, by rw [round6Mat_Ipert, round6Mat_eye3], ?_, ?_⟩
  · rw [reduce_rotations_eval]
    intro hmem
    rcases List.mem_cons.mp hmem with h | h
    · exact R90_ne_eye3 h
    · rcases List.mem_singleton.mp h with h
      have h00 := congrFun (congrFun h 0) 0
      norm_num [R90, Ipert, cons3_app0, Matrix.vecHead, Matrix.vecTail] at h00
  · simp [reduce_rotations_spec, round6Mat_eye3, round6Mat_Ipert, round6Mat_R90,
      R90_ne_eye3, eye3_ne_R90]

/-- A 6x6 matrix with pairwise distinct entries, `C[a,b] = 6a + b`. -/
def Cidx : Mat66 :=
  ![![0, 1, 2, 3, 4, 5], ![6, 7, 8, 9, 10, 11], ![12, 13, 14, 15, 16, 17],
    ![18, 19, 20, 21, 22, 23], ![24, 25, 26, 27, 28, 29], ![30, 31, 32, 33, 34, 35]]

/-- C3 (counterexample).  The spec formula `m(i,j) = 6 - 2*min(i,j) - max(i,j)`
gives `m(1,2) = 2`, but the code's expansion reads row `6 - 1 - 2 = 3` there:
at the distinct-entry matrix `Cidx`, `C[1,2,0,0] = Cidx[3,0] = 18` while the
claimed map predicts `Cidx[2,0] = 12`. -/
theorem C3_counterexample :
    voigt_to_full Cidx 1 2 0 0 ≠ Cidx (voigt_index_claim 1 2) (voigt_index_claim 0 0) := by
  decide

/-- C3 (amended).  The expansion satisfies
`C[i,j,k,l] = C6x6[m(i,j), m(k,l)]` for the map
`m(i,j) = i if i==j else 6 - min(i,j) - max(i,j)` (so diagonal pairs map to
0,1,2 and off-diagonal pairs map to 5,4,3). -/
theorem C3_theorem : ∀ (C : Mat66) (i j k l : Fin 3),
    voigt_to_full C i j k l = C (voigt_index_min_max i j) (voigt_index_min_max k l) := by
  have hmap : ∀ i j : Fin 3, voigt_index i j = voigt_index_min_max i j := by decide
  intro C i j k l
  simp [voigt_to_full, hmap]

/-- C4 (counterexample).  The claim says the orientation
`[[1,0,0],[0,1,0],[0,0,2]]` always raises; in fact row normalization turns it
into the exact identity, the determinant check passes, and the call returns
normally. -/
theorem C4_counterexample :
    get_elastic_tensor_by_orientation orientation_claim (fun _ _ => 0) ≠ none := by
  rw [getETBO_orientation_claim]
  simp

/-- C4 (amended).  `get_elastic_tensor_by_orientation` does not raise at
`[[1,0,0],[0,1,0],[0,0,2]]`: normalization rescales the third row to unit
length, giving the identity, whose determinant is exactly 1; the tensor is
returned unchanged. -/
theorem C4_theorem : ∀ C : Mat66R,
    get_elastic_tensor_by_orientation orientation_claim C = some C :=
  getETBO_orientation_claim

/-- A concrete symmetric 6x6 matrix, `C[a,b] = a + b`. -/
def Csym : Mat66 :=
  ![![0, 1, 2, 3, 4, 5], ![1, 2, 3, 4, 5, 6], ![2, 3, 4, 5, 6, 7],
    ![3, 4, 5, 6, 7, 8], ![4, 5, 6, 7, 8, 9], ![5, 6, 7, 8, 9, 10]]

/-- C8 (confirmed).  Expanding a symmetric 6x6 matrix to the full 3x3x3x3
tensor and contracting back reproduces it exactly (the proof shows this holds
for every 6x6 matrix; the claim's symmetry hypothesis is not even needed). -/
theorem C8_theorem : ∀ C : Mat66, (∀ i j, C i j = C j i) →
    full_to_voigt (voigt_to_full C) = C :=
  fun C _ => full_to_voigt_voigt_to_full C

theorem C8_witness :
    (∀ i j : Fin 6, Csym i j = Csym j i) ∧
      full_to_voigt (voigt_to_full Csym) = Csym :=
  ⟨by decide, C8_theorem Csym (by decide)⟩

/-- C9 (counterexample).  The unit-conversion constant is about `160.2`
(GPa per eV/Å⁻³); `1e21` divided by the elementary charge in coulombs is
about `6.24e39` — the claim's formula misses by 37 orders of magnitude. -/
theorem C9_counterexample : eV_div_A3_to_GPa ≠ 10 ^ 21 / elementary_charge := by
  norm_num [eV_div_A3_to_GPa, joule_electron_volt_relationship, elementary_charge]

/-- C9 (amended).  The constant equals `1e21` divided by the
joule-to-electron-volt conversion factor, which is `1e21` MULTIPLIED by the
elementary charge in coulombs (up to the CODATA table's 16-digit rounding),
whereas dividing by the charge misses by more than `1e30`. -/
theorem C9_theorem :
    eV_div_A3_to_GPa = 10 ^ 21 / joule_electron_volt_relationship ∧
    |eV_div_A3_to_GPa - 10 ^ 21 * elementary_charge| < 1 / 10 ^ 6 ∧
    10 ^ 30 < |10 ^ 21 / elementary_charge - 10 ^ 21 * elementary_charge| := by
  refine ⟨rfl, ?_, ?_⟩
  · rw [abs_lt]
    constructor <;>
      norm_num [eV_div_A3_to_GPa, joule_electron_volt_relationship, elementary_charge]
  · rw [abs_of_pos (by norm_num [elementary_charge])]
    norm_num [elementary_charge]

/-- C10 (confirmed).  Whenever a rotation list is supplied, the rotation
sequence actually used starts with the exact identity and its length is the
number of distinct rounded matrices of the identity-prepended input list
(the code keeps the first `k` entries, which preserves exactly these two
facts even though it does not deduplicate). -/
theorem C10_theorem : ∀ rots : List Mat3,
    (usedRotations (some rots)).head? = some eye3 ∧
    (usedRotations (some rots)).length =
      ((eye3 :: rots).map round6Mat).toFinset.card := by
  intro rots
  have hmem : round6Mat eye3 ∈ ((eye3 :: rots).map round6Mat).dedup :=
    List.mem_dedup.mpr (by simp)
  have hpos : 0 < ((eye3 :: rots).map round6Mat).dedup.length :=
    List.length_pos.mpr (List.ne_nil_of_mem hmem)
  have hle : ((eye3 :: rots).map round6Mat).dedup.length ≤ (eye3 :: rots).length := by
    calc ((eye3 :: rots).map round6Mat).dedup.length
        ≤ ((eye3 :: rots).map round6Mat).length :=
          (List.dedup_sublist _).length_le
      _ = (eye3 :: rots).length := List.length_map _ _
  constructor
  · obtain ⟨k, hk⟩ := Nat.exists_eq_add_of_lt hpos
    show ((eye3 :: rots).take (((eye3 :: rots).map round6Mat).dedup.length)).head? = _
    rw [hk]
    simp [List.take_succ_cons]
  · show ((eye3 :: rots).take (((eye3 :: rots).map round6Mat).dedup.length)).length = _
    rw [List.length_take, min_eq_left hle, List.card_toFinset]

theorem cons6_mk0 {α : Type} (a b c d e f : α) (h : 0 < 6) :
    (![a, b, c, d, e, f]) ⟨0, h⟩ = a := rfl

theorem cons6_mk1 {α : Type} (a b c d e f : α) (h : 1 < 6) :
    (![a, b, c, d, e, f]) ⟨1, h⟩ = b := rfl

theorem cons6_mk2 {α : Type} (a b c d e f : α) (h : 2 < 6) :
    (![a, b, c, d, e, f]) ⟨2, h⟩ = c := rfl

theorem cons6_mk3 {α : Type} (a b c d e f : α) (h : 3 < 6) :
    (![a, b, c, d, e, f]) ⟨3, h⟩ = d := rfl

theorem cons6_mk4 {α : Type} (a b c d e f : α) (h : 4 < 6) :
    (![a, b, c, d, e, f]) ⟨4, h⟩ = e := rfl

theorem cons6_mk5 {α : Type} (a b c d e f : α) (h : 5 < 6) :
    (![a, b, c, d, e, f]) ⟨5, h⟩ = f := rfl

/-- A least-squares relation instance whose residuals all vanish (an exact
interpolation) satisfies the normal equations. -/
theorem isLSFit_of_residLS_zero {ι : Type} [Fintype ι] [DecidableEq ι]
    (cols : Finset ι) (samples : List ((ι → ℚ) × ℚ)) (c : ι → ℚ) (a : ℚ)
    (hres : ∀ s ∈ samples, residLS c a s = 0)
    (hout : ∀ j ∉ cols, c j = 0) :
    IsLSFit cols samples c a := by
  refine ⟨fun j _ => List.sum_eq_zero ?_, List.sum_eq_zero ?_, hout⟩
  · intro y hy
    rcases List.mem_map.mp hy with ⟨s, hs, rfl⟩
    rw [hres s hs, zero_mul]
  · intro y hy
    rcases List.mem_map.mp hy with ⟨s, hs, rfl⟩
    exact hres s hs

theorem symmetrize_symm (M : Mat66) (i j : Fin 6) :
    symmetrize M i j = symmetrize M j i := by
  simp only [symmetrize]
  ring

/-- Case analysis of the energy-fit outcome: a tensor is produced exactly when
21 or 1 design columns are retained, a broadcast shape error otherwise. -/
theorem energy_fit_cases (X : List Vec6) (E V : List ℚ) (m : ℕ)
    (out : CalcOutcome) (h : energy_fit X E V m out) :
    ((∃ C, out = CalcOutcome.ok C) ↔
      ((energyRetained (energyRows X V m)).card = 21 ∨
        (energyRetained (energyRows X V m)).card = 1)) ∧
    (out = CalcOutcome.shapeError ↔
      ¬((energyRetained (energyRows X V m)).card = 21 ∨
        (energyRetained (energyRows X V m)).card = 1)) := by
  unfold energy_fit at h
  by_cases h21 : (energyRetained (energyRows X V m)).card = 21
  · rw [if_pos h21] at h
    obtain ⟨c, a, _, rfl⟩ := h
    refine ⟨iff_of_true ⟨_, rfl⟩ (Or.inl h21), iff_of_false (by simp) ?_⟩
    simp [h21]
  · rw [if_neg h21] at h
    by_cases h1 : (energyRetained (energyRows X V m)).card = 1
    · rw [if_pos h1] at h
      obtain ⟨c, a, _, rfl⟩ := h
      refine ⟨iff_of_true ⟨_, rfl⟩ (Or.inr h1), iff_of_false (by simp) ?_⟩
      simp [h21, h1]
    · rw [if_neg h1] at h
      subst h
      refine ⟨iff_of_false ?_ (by simp [h21, h1]), iff_of_true rfl (by simp [h21, h1])⟩
      rintro ⟨C, hC⟩
      exact CalcOutcome.noConfusion hC

/-- Strain `diag(1,0,0)`. -/
def d100 : Mat3 := ![![1, 0, 0], ![0, 0, 0], ![0, 0, 0]]

/-- Strain `diag(2,0,0)`. -/
def d200 : Mat3 := ![![2, 0, 0], ![0, 0, 0], ![0, 0, 0]]

/-- Strain `diag(0,1,0)`. -/
def d010 : Mat3 := ![![0, 0, 0], ![0, 1, 0], ![0, 0, 0]]

/-- Strain `diag(1,1,0)`. -/
def d110 : Mat3 := ![![1, 0, 0], ![0, 1, 0], ![0, 0, 0]]

/-- The zero 3x3 matrix. -/
def zero3 : Mat3 := fun _ _ => 0

/-- The unit stress `diag(1,1,1)`. -/
def sig111 : Mat3 := ![![1, 0, 0], ![0, 1, 0], ![0, 0, 1]]

/-- C5's sample set: strains `diag(1,0,0)` and `diag(2,0,0)`. -/
def strainC5 : List Mat3 := [d100, d200]

/-- C5's stresses: the unit stress at both samples. -/
def stressC5 : List Mat3 := [sig111, sig111]

/-- The alternative slope showing the returned row is not an
ordinary-least-squares solution through the origin. -/
def cAlt : Vec6 := fun j => if j = 0 then 1 else 0

theorem stressFitRel_C5 : stressFitRel (augStrainV [eye3] strainC5) stressC5 [eye3] zero66 := by
  intro i
  have key : ∀ a : ℚ,
      (∀ s ∈ (augStrainV [eye3] strainC5).zip
          ((augStressV [eye3] stressC5).map fun y => y i),
        residLS (zero66 i) a s = 0) →
      ∃ a : ℚ, IsLSFit Finset.univ
        ((augStrainV [eye3] strainC5).zip
          ((augStressV [eye3] stressC5).map fun y => y i)) (zero66 i) a :=
    fun a ha => ⟨a, isLSFit_of_residLS_zero _ _ _ _ ha (fun j hj =>
      absurd (Finset.mem_univ j) hj)⟩
  fin_cases i
  · refine key 1 ?_
    intro s hs
    simp only [augStrainV, augStressV, strainC5, stressC5, List.map_cons,
      List.map_nil, List.flatten, List.append_nil, List.zip_cons_cons,
      List.zip_nil_right, List.mem_cons, List.not_mem_nil, or_false] at hs
    rcases hs with rfl | rfl <;>
      norm_num [residLS, dotp, Fin.sum_univ_six, Fin.sum_univ_three, zero66,
        voigtStrain, voigtStress, conjRot, eye3, d100, d200, sig111,
        cons3_app0, cons3_app1, cons3_app2, cons6_app0, cons6_app1, cons6_app2,
        cons6_app3, cons6_app4, cons6_app5, Matrix.vecHead, Matrix.vecTail]
  · refine key 1 ?_
    intro s hs
    simp only [augStrainV, augStressV, strainC5, stressC5, List.map_cons,
      List.map_nil, List.flatten, List.append_nil, List.zip_cons_cons,
      List.zip_nil_right, List.mem_cons, List.not_mem_nil, or_false] at hs
    rcases hs with rfl | rfl <;>
      norm_num [residLS, dotp, Fin.sum_univ_six, Fin.sum_univ_three, zero66,
        voigtStrain, voigtStress, conjRot, eye3, d100, d200, sig111,
        cons3_app0, cons3_app1, cons3_app2, cons6_app0, cons6_app1, cons6_app2,
        cons6_app3, cons6_app4, cons6_app5, Matrix.vecHead, Matrix.vecTail]
  · refine key 1 ?_
    intro s hs
    simp only [augStrainV, augStressV, strainC5, stressC5, List.map_cons,
      List.map_nil, List.flatten, List.append_nil, List.zip_cons_cons,
      List.zip_nil_right, List.mem_cons, List.not_mem_nil, or_false] at hs
    rcases hs with rfl | rfl <;>
      norm_num [residLS, dotp, Fin.sum_univ_six, Fin.sum_univ_three, zero66,
        voigtStrain, voigtStress, conjRot, eye3, d100, d200, sig111,
        cons3_app0, cons3_app1, cons3_app2, cons6_app0, cons6_app1, cons6_app2,
        cons6_app3, cons6_app4, cons6_app5, Matrix.vecHead, Matrix.vecTail]
  · refine key 0 ?_
    intro s hs
    simp only [augStrainV, augStressV, strainC5, stressC5, List.map_cons,
      List.map_nil, List.flatten, List.append_nil, List.zip_cons_cons,
      List.zip_nil_right, List.mem_cons, List.not_mem_nil, or_false] at hs
    rcases hs with rfl | rfl <;>
      norm_num [residLS, dotp, Fin.sum_univ_six, Fin.sum_univ_three, zero66,
        voigtStrain, voigtStress, conjRot, eye3, d100, d200, sig111,
        cons3_app0, cons3_app1, cons3_app2, cons6_app0, cons6_app1, cons6_app2,
        cons6_app3, cons6_app4, cons6_app5, Matrix.vecHead, Matrix.vecTail]
  · refine key 0 ?_
    intro s hs
    simp only [augStrainV, augStressV, strainC5, stressC5, List.map_cons,
      List.map_nil, List.flatten, List.append_nil, List.zip_cons_cons,
      List.zip_nil_right, List.mem_cons, List.not_mem_nil, or_false] at hs
    rcases hs with rfl | rfl <;>
      norm_num [residLS, dotp, Fin.sum_univ_six, Fin.sum_univ_three, zero66,
        voigtStrain, voigtStress, conjRot, eye3, d100, d200, sig111,
        cons3_app0, cons3_app1, cons3_app2, cons6_app0, cons6_app1, cons6_app2,
        cons6_app3, cons6_app4, cons6_app5, Matrix.vecHead, Matrix.vecTail]
  · refine key 0 ?_
    intro s hs
    simp only [augStrainV, augStressV, strainC5, stressC5, List.map_cons,
      List.map_nil, List.flatten, List.append_nil, List.zip_cons_cons,
      List.zip_nil_right, List.mem_cons, List.not_mem_nil, or_false] at hs
    rcases hs with rfl | rfl <;>
      norm_num [residLS, dotp, Fin.sum_univ_six, Fin.sum_univ_three, zero66,
        voigtStrain, voigtStress, conjRot, eye3, d100, d200, sig111,
        cons3_app0, cons3_app1, cons3_app2, cons6_app0, cons6_app1, cons6_app2,
        cons6_app3, cons6_app4, cons6_app5, Matrix.vecHead, Matrix.vecTail]

/-- C5 (counterexample).  At strains `diag(1,0,0)`, `diag(2,0,0)` with unit
stress at both samples, sklearn's (intercept-carrying) regression returns the
zero slope row (with intercept 1; the system is exactly interpolated, and the
solution is the minimum-norm one, so this is precisely what the code
returns), yet the zero row is NOT an ordinary-least-squares solution without
intercept: the slope `cAlt` has strictly smaller through-the-origin residual
sum of squares. -/
theorem C5_counterexample :
    stressFitRel (augStrainV [eye3] strainC5) stressC5 [eye3] zero66 ∧
    SSRno ((augStrainV [eye3] strainC5).zip
        ((augStressV [eye3] stressC5).map fun y => y 0)) cAlt <
      SSRno ((augStrainV [eye3] strainC5).zip
        ((augStressV [eye3] stressC5).map fun y => y 0)) (zero66 0) := by
  refine ⟨stressFitRel_C5, ?_⟩
  norm_num [SSRno, augStrainV, augStressV, strainC5, stressC5, List.map_cons,
    List.map_nil, List.flatten, List.append_nil, List.zip_cons_cons,
    List.zip_nil_right, dotp, Fin.sum_univ_six, Fin.sum_univ_three, zero66,
    cAlt, voigtStrain, voigtStress, conjRot, eye3, d100, d200, sig111,
    cons3_app0, cons3_app1, cons3_app2, cons6_app0, cons6_app1, cons6_app2,
    cons6_app3, cons6_app4, cons6_app5, Matrix.vecHead, Matrix.vecTail]

/-- C5 (amended).  In the stress-based fit, each row of the returned tensor
is, together with its intercept, an ordinary-least-squares solution WITH
intercept (sklearn's `LinearRegression` default) of that stress component
against the 6-column rotation-augmented strain design: it minimises the
intercept-carrying sum of squared residuals. -/
theorem C5_theorem : ∀ (X : List Vec6) (stress rots : List Mat3) (C : Mat66),
    stressFitRel X stress rots C → ∀ i : Fin 6, ∃ a : ℚ, ∀ c1 a1,
      SSR (X.zip ((augStressV rots stress).map fun y => y i)) (C i) a ≤
        SSR (X.zip ((augStressV rots stress).map fun y => y i)) c1 a1 := by
  intro X stress rots C h i
  obtain ⟨a, hfit⟩ := h i
  exact ⟨a, isLSFit_min _ _ _ hfit⟩

theorem C5_witness : ∃ a : ℚ, ∀ c1 a1,
    SSR ((augStrainV [eye3] strainC5).zip
        ((augStressV [eye3] stressC5).map fun y => y 0)) (zero66 0) a ≤
      SSR ((augStrainV [eye3] strainC5).zip
        ((augStressV [eye3] stressC5).map fun y => y 0)) c1 a1 :=
  C5_theorem (augStrainV [eye3] strainC5) stressC5 [eye3] zero66 stressFitRel_C5 0

/-- Voigt vector `(1,0,0,0,0,0)`. -/
def v100 : Vec6 := ![1, 0, 0, 0, 0, 0]

/-- Voigt vector `(1,1,0,0,0,0)`. -/
def v110 : Vec6 := ![1, 1, 0, 0, 0, 0]

/-- Voigt vector `(1,-1,0,0,0,0)`. -/
def vm110 : Vec6 := ![1, -1, 0, 0, 0, 0]

theorem voigtStrain_d100 : voigtStrain (conjRot eye3 d100) = v100 := by
  funext j
  fin_cases j <;>
    norm_num [voigtStrain, conjRot, eye3, d100, v100, Fin.sum_univ_three,
      cons3_app0, cons3_app1, cons3_app2, cons6_app0, cons6_app1, cons6_app2,
      cons6_app3, cons6_app4, cons6_app5, Matrix.vecHead, Matrix.vecTail]

theorem voigtStrain_d110 : voigtStrain (conjRot eye3 d110) = v110 := by
  funext j
  fin_cases j <;>
    norm_num [voigtStrain, conjRot, eye3, d110, v110, Fin.sum_univ_three,
      cons3_app0, cons3_app1, cons3_app2, cons6_app0, cons6_app1, cons6_app2,
      cons6_app3, cons6_app4, cons6_app5, Matrix.vecHead, Matrix.vecTail]

theorem augStrain_d100 : augStrainV [eye3] [d100] = [v100] := by
  simp [augStrainV, voigtStrain_d100]

theorem augStrain_d110 : augStrainV [eye3] [d110] = [v110] := by
  simp [augStrainV, voigtStrain_d110]

theorem retained_v100 :
    energyRetained (energyRows [v100] [2] 1) = {(⟨0, by omega⟩ : Fin 36)} := by
  ext p
  fin_cases p <;>
    norm_num [energyRetained, energyRows, tile, colSum, designRow, v100,
      Finset.mem_filter, List.replicate, cons6_mk0, cons6_mk1, cons6_mk2,
      cons6_mk3, cons6_mk4, cons6_mk5, Fin.ext_iff,
      Matrix.vecHead, Matrix.vecTail]

theorem retained_v110 :
    energyRetained (energyRows [v110] [1] 1) =
      ({⟨0, by omega⟩, ⟨1, by omega⟩, ⟨7, by omega⟩} : Finset (Fin 36)) := by
  ext p
  fin_cases p <;>
    norm_num [energyRetained, energyRows, tile, colSum, designRow, v110,
      Finset.mem_filter, Finset.mem_insert, List.replicate, cons6_mk0,
      cons6_mk1, cons6_mk2, cons6_mk3, cons6_mk4, cons6_mk5, Fin.ext_iff,
      Matrix.vecHead, Matrix.vecTail]

/-- The zero coefficient vector over the 36 design columns. -/
def zeroC36 : Fin 36 → ℚ := fun _ => 0

/-- The tensor the energy fit produces on the single-retained-column witness
data (all coefficients zero, broadcast over the upper triangle). -/
def MW66 : Mat66 :=
  symmetrize fun i j =>
    if (i : ℕ) ≤ (j : ℕ) then (∑ p, zeroC36 p) * eV_div_A3_to_GPa else 0

theorem energy_fit_v110_shape :
    energy_fit [v110] [1] [1] 1 CalcOutcome.shapeError := by
  unfold energy_fit
  rw [if_neg (by rw [retained_v110]; decide), if_neg (by rw [retained_v110]; decide)]

theorem energy_fit_v100_ok : energy_fit [v100] [5] [2] 1 (CalcOutcome.ok MW66) := by
  unfold energy_fit
  rw [if_neg (by rw [retained_v100]; decide), if_pos (by rw [retained_v100]; decide)]
  refine ⟨zeroC36, 5, ?_, rfl⟩
  apply isLSFit_of_residLS_zero
  · intro s hs
    rcases List.mem_singleton.mp hs with rfl
    simp [residLS, dotp, zeroC36]
  · intro j _
    rfl

/-- C6 (counterexample).  Two failures of the claim: (i) at the single sample
with Voigt strain `(1,1,0,0,0,0)` (energy 1, volume 1) exactly 3 design
columns are retained, and the scatter-back step is a numpy broadcast shape
error rather than a fitted tensor; (ii) at the two samples `(1,-1,0,...)`,
`(1,1,0,...)` with volumes 2, the product column of the pair `(0,1)` has
entries `-1` and `1` — not identically zero — yet its SUM is zero, so the
code drops it. -/
theorem C6_counterexample :
    (energy_fit [v110] [1] [1] 1 CalcOutcome.shapeError ∧
      ¬∃ C, CalcOutcome.shapeError = CalcOutcome.ok C) ∧
    ((⟨1, by omega⟩ : Fin 36) ∉ energyRetained (energyRows [vm110, v110] [2, 2] 1) ∧
      ¬∀ r ∈ energyRows [vm110, v110] [2, 2] 1, r ⟨1, by omega⟩ = 0) := by
  refine ⟨⟨energy_fit_v110_shape, ?_⟩, ?_, ?_⟩
  · rintro ⟨C, hC⟩
    exact CalcOutcome.noConfusion hC
  · norm_num [energyRetained, energyRows, tile, colSum, designRow, vm110, v110,
      Finset.mem_filter, List.replicate, cons6_mk0, cons6_mk1, cons6_mk2,
      cons6_mk3, cons6_mk4, cons6_mk5, Matrix.vecHead, Matrix.vecTail]
  · intro hall
    have hmem : designRow 2 vm110 ∈ energyRows [vm110, v110] [2, 2] 1 :=
      List.mem_cons_self _ _
    have hz := hall _ hmem
    norm_num [designRow, vm110, cons6_mk0, cons6_mk1,
      Matrix.vecHead, Matrix.vecTail] at hz

/-- C6 (amended).  The energy design drops exactly the columns whose SUM over
samples is zero (in particular every identically-zero column is dropped, but
cancelling columns are dropped too), and the scatter-back succeeds if and
only if exactly 21 or exactly 1 columns are retained (21: positionwise
scatter into the upper triangle; 1: numpy broadcasts the single coefficient
to all 21 slots; anything else raises a broadcast shape error). -/
theorem C6_theorem : ∀ (X : List Vec6) (E V : List ℚ) (m : ℕ) (out : CalcOutcome),
    energy_fit X E V m out →
    ((∀ p : Fin 36, (∀ r ∈ energyRows X V m, r p = 0) →
        p ∉ energyRetained (energyRows X V m)) ∧
      (∀ p : Fin 36, p ∈ energyRetained (energyRows X V m) ↔
        colSum (energyRows X V m) p ≠ 0) ∧
      ((∃ C, out = CalcOutcome.ok C) ↔
        ((energyRetained (energyRows X V m)).card = 21 ∨
          (energyRetained (energyRows X V m)).card = 1))) := by
  intro X E V m out h
  refine ⟨?_, ?_, (energy_fit_cases X E V m out h).1⟩
  · intro p hall hmem
    rw [energyRetained, Finset.mem_filter] at hmem
    apply hmem.2
    rw [colSum]
    apply List.sum_eq_zero
    intro y hy
    rcases List.mem_map.mp hy with ⟨r, hr, rfl⟩
    exact hall r hr
  · intro p
    simp [energyRetained]

theorem C6_witness : ∃ C, CalcOutcome.ok MW66 = CalcOutcome.ok C :=
  (C6_theorem [v100] [5] [2] 1 (CalcOutcome.ok MW66) energy_fit_v100_ok).2.2.mpr
    (Or.inr (by rw [retained_v100]; decide))

/-- C1's strain samples: `diag(1,0,0)`, `diag(0,1,0)` and the zero matrix. -/
def strainC1 : List Mat3 := [d100, d010, zero3]

/-- C1's stress samples: zero stress except `diag(1,0,0)` at the second
sample. -/
def stressC1 : List Mat3 := [zero3, d100, zero3]

/-- The (unique, minimum-norm) tensor the stress fit returns on C1's data:
`C[0,1] = 1`, all other entries zero — an asymmetric matrix. -/
def C0asym : Mat66 := fun i j => if i = 0 ∧ j = 1 then 1 else 0

/-- The arguments of C1's stress-path counterexample call. -/
def argsC1 : CalcArgs := ⟨strainC1, some stressC1, none, none, none⟩

theorem stressFitRel_C1 :
    stressFitRel (augStrainV [eye3] strainC1) stressC1 [eye3] C0asym := by
  intro i
  refine ⟨0, isLSFit_of_residLS_zero _ _ _ _ ?_ (fun j hj =>
    absurd (Finset.mem_univ j) hj)⟩
  intro s hs
  simp only [augStrainV, augStressV, strainC1, stressC1, List.map_cons,
    List.map_nil, List.flatten, List.append_nil, List.zip_cons_cons,
    List.zip_nil_right, List.mem_cons, List.not_mem_nil, or_false] at hs
  fin_cases i <;>
    rcases hs with rfl | rfl | rfl <;>
      norm_num [residLS, dotp, Fin.sum_univ_six, Fin.sum_univ_three, C0asym,
        voigtStrain, voigtStress, conjRot, eye3, d100, d010, zero3, Fin.ext_iff,
        cons3_app0, cons3_app1, cons3_app2, cons6_app0, cons6_app1, cons6_app2,
        cons6_app3, cons6_app4, cons6_app5, Matrix.vecHead, Matrix.vecTail]

theorem calc_C1 : calc_elastic_tensor argsC1 (CalcOutcome.ok C0asym) := by
  unfold calc_elastic_tensor
  rw [if_neg (by decide), if_pos (by decide)]
  exact ⟨stressC1, rfl, C0asym, stressFitRel_C1, rfl⟩

/-- C1 (counterexample).  A successful stress-path call of
`calc_elastic_tensor` whose returned tensor is asymmetric: the six Voigt
stress components are regressed independently and nothing symmetrizes the
result.  (On this data the augmented design is exactly interpolable and has
full rank on its active columns, so the relation solution shown here is
precisely sklearn's minimum-norm output.) -/
theorem C1_counterexample :
    calc_elastic_tensor argsC1 (CalcOutcome.ok C0asym) ∧ C0asym 0 1 ≠ C0asym 1 0 := by
  refine ⟨calc_C1, ?_⟩
  norm_num [C0asym]

/-- C1 (amended).  The symmetry invariant holds on the energy-based path
(the fit ends with `0.5*(coeff + coeff.T)`): whenever the stress branch is
not taken and the call succeeds, the returned tensor is symmetric.  The
stress-based path carries no such guarantee (see the counterexample). -/
theorem C1_theorem : ∀ (args : CalcArgs) (C : Mat66), CondA args = false →
    calc_elastic_tensor args (CalcOutcome.ok C) → ∀ i j, C i j = C j i := by
  intro args C hA h i j
  unfold calc_elastic_tensor at h
  by_cases h0 : args.strain.length = 0
  · rw [if_pos h0] at h
    exact absurd h (by simp)
  · rw [if_neg h0, if_neg (by simp [hA])] at h
    by_cases hB : CondB args = true
    · rw [if_pos hB] at h
      obtain ⟨E, V, _, _, hfit⟩ := h
      unfold energy_fit at hfit
      split_ifs at hfit with h21 h1
      · obtain ⟨c, a, _, hout⟩ := hfit
        injection hout with h'
        subst h'
        exact symmetrize_symm _ i j
      · obtain ⟨c, a, _, hout⟩ := hfit
        injection hout with h'
        subst h'
        exact symmetrize_symm _ i j
    · rw [if_neg hB] at h
      exact absurd h (by simp)

/-- The arguments of C1's energy-path witness call. -/
def argsW : CalcArgs := ⟨[d100], none, some [5], some [2], none⟩

theorem calc_argsW : calc_elastic_tensor argsW (CalcOutcome.ok MW66) := by
  unfold calc_elastic_tensor
  rw [if_neg (by decide), if_neg (by decide), if_pos (by decide)]
  refine ⟨[5], [2], rfl, rfl, ?_⟩
  show energy_fit (augStrainV [eye3] [d100]) [5] [2] 1 (CalcOutcome.ok MW66)
  rw [augStrain_d100]
  exact energy_fit_v100_ok

theorem C1_witness : MW66 0 1 = MW66 1 0 :=
  C1_theorem argsW MW66 (by decide) calc_argsW 0 1

/-- The arguments of C7's energy-path shape-error call. -/
def argsC7 : CalcArgs := ⟨[d110], none, some [1], some [1], none⟩

theorem calc_C7shape : calc_elastic_tensor argsC7 CalcOutcome.shapeError := by
  unfold calc_elastic_tensor
  rw [if_neg (by decide), if_neg (by decide), if_pos (by decide)]
  refine ⟨[1], [1], rfl, rfl, ?_⟩
  show energy_fit (augStrainV [eye3] [d110]) [1] [1] 1 CalcOutcome.shapeError
  rw [augStrain_d110]
  exact energy_fit_v110_shape

/-- C7 (counterexample).  A call with non-empty strain whose energy+volume
data passes the length checks (`CondB`) does NOT always return a tensor: at
strain `diag(1,1,0)` with energy `[1]`, volume `[1]` the energy fit retains 3
design columns and dies in the numpy broadcast, so the outcome is a shape
error — neither `InsufficientData`, nor `InputMismatch`, nor a tensor. -/
theorem C7_counterexample :
    calc_elastic_tensor argsC7 CalcOutcome.shapeError ∧
    argsC7.strain.length ≠ 0 ∧ CondA argsC7 = false ∧ CondB argsC7 = true ∧
    ¬∃ C, CalcOutcome.shapeError = CalcOutcome.ok C := by
  refine ⟨calc_C7shape, by decide, by decide, by decide, ?_⟩
  rintro ⟨C, hC⟩
  exact CalcOutcome.noConfusion hC

/-- C7 (amended).  `calc_elastic_tensor` raises `InsufficientData` iff the
strain list is empty; for non-empty strain it raises `InputMismatch` iff
neither the stress condition nor the energy-plus-volume condition holds;
when the stress condition holds it returns a tensor; when only the
energy-plus-volume condition holds it returns a tensor iff the retained
design-column count is 21 or 1 and otherwise fails with a numpy broadcast
shape error. -/
theorem C7_theorem : ∀ (args : CalcArgs) (out : CalcOutcome),
    calc_elastic_tensor args out →
    ((out = CalcOutcome.notEnoughPoints ↔ args.strain.length = 0) ∧
      (out = CalcOutcome.inputMismatch ↔
        (args.strain.length ≠ 0 ∧ CondA args = false ∧ CondB args = false)) ∧
      (args.strain.length ≠ 0 → CondA args = true → ∃ C, out = CalcOutcome.ok C) ∧
      (args.strain.length ≠ 0 → CondA args = false → CondB args = true →
        ∃ E V, args.energy = some E ∧ args.volume = some V ∧
          ((∃ C, out = CalcOutcome.ok C) ↔
            ((energyRetained (energyRows
                (augStrainV (usedRotations args.rotations) args.strain) V
                (usedRotations args.rotations).length)).card = 21 ∨
              (energyRetained (energyRows
                (augStrainV (usedRotations args.rotations) args.strain) V
                (usedRotations args.rotations).length)).card = 1)) ∧
          (out = CalcOutcome.shapeError ↔
            ¬((energyRetained (energyRows
                (augStrainV (usedRotations args.rotations) args.strain) V
                (usedRotations args.rotations).length)).card = 21 ∨
              (energyRetained (energyRows
                (augStrainV (usedRotations args.rotations) args.strain) V
                (usedRotations args.rotations).length)).card = 1)))) := by
  intro args out h
  unfold calc_elastic_tensor at h
  by_cases h0 : args.strain.length = 0
  · rw [if_pos h0] at h
    subst h
    refine ⟨iff_of_true rfl h0, iff_of_false (by simp) (fun hc => hc.1 h0), ?_, ?_⟩
    · intro hne _
      exact absurd h0 hne
    · intro hne _ _
      exact absurd h0 hne
  · rw [if_neg h0] at h
    by_cases hA : CondA args = true
    · rw [if_pos hA] at h
      obtain ⟨S, hS, C, hrel, rfl⟩ := h
      refine ⟨iff_of_false (by simp) h0, iff_of_false (by simp) ?_,
        fun _ _ => ⟨C, rfl⟩, ?_⟩
      · rintro ⟨-, hA2, -⟩
        rw [hA] at hA2
        exact Bool.noConfusion hA2
      · intro _ hA2 _
        rw [hA] at hA2
        exact Bool.noConfusion hA2
    · have hA' : CondA args = false := by
        cases hca : CondA args
        · rfl
        · exact absurd hca hA
      rw [if_neg hA] at h
      by_cases hB : CondB args = true
      · rw [if_pos hB] at h
        obtain ⟨E, V, hE, hV, hfit⟩ := h
        have hc := energy_fit_cases _ _ _ _ _ hfit
        have hshape : (∃ C, out = CalcOutcome.ok C) ∨ out = CalcOutcome.shapeError := by
          by_cases hcard :
            ((energyRetained (energyRows
                (augStrainV (usedRotations args.rotations) args.strain) V
                (usedRotations args.rotations).length)).card = 21 ∨
              (energyRetained (energyRows
                (augStrainV (usedRotations args.rotations) args.strain) V
                (usedRotations args.rotations).length)).card = 1)
          · exact Or.inl (hc.1.mpr hcard)
          · exact Or.inr (hc.2.mpr hcard)
        refine ⟨iff_of_false ?_ h0, iff_of_false ?_ ?_, ?_, ?_⟩
        · rcases hshape with ⟨C, rfl⟩ | rfl <;> simp
        · rcases hshape with ⟨C, rfl⟩ | rfl <;> simp
        · rintro ⟨-, -, hB2⟩
          rw [hB] at hB2
          exact Bool.noConfusion hB2
        · intro _ hA2
          rw [hA'] at hA2
          exact Bool.noConfusion hA2
        · intro _ _ _
          exact ⟨E, V, hE, hV, hc.1, hc.2⟩
      · have hB' : CondB args = false := by
          cases hcb : CondB args
          · rfl
          · exact absurd hcb hB
        rw [if_neg hB] at h
        subst h
        refine ⟨iff_of_false (by simp) h0, iff_of_true rfl ⟨h0, hA', hB'⟩, ?_, ?_⟩
        · intro _ hA2
          rw [hA'] at hA2
          exact Bool.noConfusion hA2
        · intro _ _ hB2
          rw [hB'] at hB2
          exact Bool.noConfusion hB2

/-- Empty-strain arguments: the claim's `InsufficientData` instance. -/
def argsEmpty : CalcArgs := ⟨[], none, none, none, none⟩

/-- `strain=[s1,s2]`, `stress=[t1]`, no energy: the claim's `InputMismatch`
instance. -/
def argsMis : CalcArgs := ⟨[d100, d200], some [sig111], none, none, none⟩

theorem calc_argsEmpty : calc_elastic_tensor argsEmpty CalcOutcome.notEnoughPoints := by
  unfold calc_elastic_tensor
  rw [if_pos (by decide)]

theorem calc_argsMis : calc_elastic_tensor argsMis CalcOutcome.inputMismatch := by
  unfold calc_elastic_tensor
  rw [if_neg (by decide), if_neg (by decide), if_neg (by decide)]

theorem C7_witness :
    (CalcOutcome.notEnoughPoints = CalcOutcome.notEnoughPoints ↔
      argsEmpty.strain.length = 0) ∧
    (CalcOutcome.inputMismatch = CalcOutcome.inputMismatch ↔
      (argsMis.strain.length ≠ 0 ∧ CondA argsMis = false ∧ CondB argsMis = false)) :=
  ⟨(C7_theorem argsEmpty CalcOutcome.notEnoughPoints calc_argsEmpty).1,
    (C7_theorem argsMis CalcOutcome.inputMismatch calc_argsMis).2.1⟩
